import Mathlib

/-!
Verification of the go-server-sdk streaming core and user builder.

The streaming state machine and the versioned store are modelled from the
specification (their implementation files are not part of the sources here;
only their tests are), while the user builder is embedded directly from
`user_builder.go`.  Go pointers and maps are modelled with an explicit
append-only heap where aliasing matters.
-/

/-- Opaque JSON-ish attribute/payload value (`interface{}` / `ldvalue.Value`
in the Go code; the core never inspects these values). -/
inductive LDValue where
  | null : LDValue
  | bool (b : Bool) : LDValue
  | num (n : Int) : LDValue
  | str (s : String) : LDValue
deriving DecidableEq, Repr

/-- Modelled from the spec: `DataKind` is one of `Flags`, `Segments`;
each kind has its own namespace of keys. -/
inductive DataKind where
  | flags : DataKind
  | segments : DataKind
deriving DecidableEq, Repr

/-- Modelled from the spec: `VersionedItem` is
`{ key, version ≥ 0, deleted, payload }` (the implementation file of the
store is not among the sources; only its tests are). -/
structure VersionedItem where
  key : String
  version : Nat
  deleted : Bool
  payload : LDValue
deriving DecidableEq, Repr

/-- A full snapshot: for each kind, a mapping from keys to items. -/
def Snapshot : Type := DataKind → String → Option VersionedItem

/-- Modelled from the spec: the VersionedStore state.  `initLog` records the
sequence of `Init` calls (the observable that the tests inspect through the
store's `Init` hook), newest last. -/
structure Store where
  items : DataKind → String → Option VersionedItem
  initialized : Bool
  initLog : List Snapshot

/-- The store as created before any data has arrived. -/
def emptyStore : Store :=
  { items := fun _ _ => none, initialized := false, initLog := [] }

/-- Write one item into the store's mapping, leaving every other key of
every kind unchanged. -/
def storeWrite (s : Store) (kind : DataKind) (key : String)
    (item : VersionedItem) : Store :=
  { s with items := fun k k2 =>
      if k = kind then (if k2 = key then some item else s.items k k2)
      else s.items k k2 }

/-- Modelled from the spec: `Upsert(kind, item)` — if no existing item for
`(kind, item.key)`, or `item.version > existing.version`, store `item` and
return accepted; otherwise discard and return rejected (not an error). -/
def upsert (s : Store) (kind : DataKind) (item : VersionedItem) :
    Store × Bool :=
  match s.items kind item.key with
  | none => (storeWrite s kind item.key item, true)
  | some existing =>
      if existing.version < item.version then
        (storeWrite s kind item.key item, true)
      else (s, false)

/-- Modelled from the spec: `Delete(kind, key, version)` is `Upsert` with a
tombstone item of that version. -/
def deleteItem (s : Store) (kind : DataKind) (key : String) (version : Nat) :
    Store × Bool :=
  upsert s kind { key := key, version := version, deleted := true,
                  payload := LDValue.null }

/-- Modelled from the spec: `Get(kind, key)` returns the current item or
"not found"; tombstoned and absent are both "not found" to external
readers. -/
def getItem (s : Store) (kind : DataKind) (key : String) :
    Option VersionedItem :=
  match s.items kind key with
  | none => none
  | some item => if item.deleted then none else some item

/-- Modelled from the spec: `Init(snapshot)` atomically replaces the entire
contents for all kinds and marks the store initialized. -/
def initStore (s : Store) (snapshot : Snapshot) : Store :=
  { items := snapshot, initialized := true, initLog := s.initLog ++ [snapshot] }

/-- The version currently stored for a key (tombstones included: the stored
version is the version of the most recently accepted write). -/
def storedVersion (s : Store) (kind : DataKind) (key : String) : Option Nat :=
  (s.items kind key).map (fun it => it.version)

/-- One call of the sequence considered in the replay property: an `Upsert`
or a `Delete` on a fixed `(kind, key)`, carrying its version (and, for
upserts, a payload). -/
inductive KeyOp where
  | up (version : Nat) (payload : LDValue) : KeyOp
  | del (version : Nat) : KeyOp
deriving DecidableEq, Repr

/-- The version carried by a call. -/
def KeyOp.ver : KeyOp → Nat
  | .up v _ => v
  | .del v => v

/-- Apply one `Upsert`/`Delete` call on `(kind, key)`, returning the new
store and whether the call was accepted. -/
def applyKeyOp (kind : DataKind) (key : String) (s : Store) (op : KeyOp) :
    Store × Bool :=
  match op with
  | .up v p => upsert s kind { key := key, version := v, deleted := false,
                               payload := p }
  | .del v => deleteItem s kind key v

/-- Run a sequence of `Upsert`/`Delete` calls on `(kind, key)`. -/
def runKeyOps (kind : DataKind) (key : String) (s : Store)
    (ops : List KeyOp) : Store :=
  match ops with
  | [] => s
  | op :: rest => runKeyOps kind key (applyKeyOp kind key s op).1 rest

/-- The versions of the calls that were accepted during a run, in order. -/
def acceptedVersions (kind : DataKind) (key : String) (s : Store) :
    List KeyOp → List Nat
  | [] => []
  | op :: rest =>
      let r := applyKeyOp kind key s op
      if r.2 then op.ver :: acceptedVersions kind key r.1 rest
      else acceptedVersions kind key r.1 rest

/-- Maximum of a list of versions, `none` for the empty list. -/
def maxOfList : List Nat → Option Nat
  | [] => none
  | v :: rest =>
      match maxOfList rest with
      | none => some v
      | some m => some (max v m)

/-- Combine an optional current version with an optional maximum. -/
def omax : Option Nat → Option Nat → Option Nat
  | none, b => b
  | some a, none => some a
  | some a, some b => some (max a b)

/-- Modelled from the spec: a decoded stream event — one of the five event
kinds of the streaming protocol (`put`, `patch`, `delete`, `indirect-put`,
`indirect-patch`); `patch`/`delete`/`indirect-patch` carry a path of the
form `/flags/<key>` or `/segments/<key>`. -/
inductive StreamEvent where
  | put (snapshot : Snapshot) : StreamEvent
  | patch (path : String) (item : VersionedItem) : StreamEvent
  | deleteEvent (path : String) (version : Nat) : StreamEvent
  | indirectPut : StreamEvent
  | indirectPatch (path : String) : StreamEvent

/-- Whether the first character list starts the second one. -/
def isPreOf : List Char → List Char → Bool
  | [], _ => true
  | _ :: _, [] => false
  | c :: cs, d :: ds => c = d && isPreOf cs ds

/-- Modelled from the spec: resolve an event path `/flags/<key>` or
`/segments/<key>` to the kind and key it addresses. -/
def parsePath (path : String) : Option (DataKind × String) :=
  if isPreOf "/flags/".toList path.toList then
    some (DataKind.flags, String.mk (path.toList.drop 7))
  else if isPreOf "/segments/".toList path.toList then
    some (DataKind.segments, String.mk (path.toList.drop 10))
  else none

/-- Modelled from the spec: the cause of a failed connection attempt —
either an HTTP status code or a network-level error. -/
inductive ConnFault where
  | httpError (status : Nat) : ConnFault
  | networkError : ConnFault
deriving DecidableEq, Repr

/-- Modelled from the spec: recoverable causes are network-level errors and
HTTP 400, 408, 429 and 5xx; HTTP 401, 403, 404 and any other status are
unrecoverable. -/
def isRecoverable : ConnFault → Bool
  | .networkError => true
  | .httpError status =>
      if status = 400 ∨ status = 408 ∨ status = 429 ∨
         (500 ≤ status ∧ status < 600) then true else false

/-- Modelled from the spec: a pull request issued through the
UpdateRequestor — either a full snapshot fetch or a single-item fetch. -/
inductive FetchRequest where
  | fetchAllReq : FetchRequest
  | fetchItemReq (kind : DataKind) (key : String) : FetchRequest
deriving DecidableEq, Repr

/-- Modelled from the spec: the request path of a single-item pull against
the polling endpoint (`/sdk/latest-flags/<key>` for flags, and the
analogous segments path). -/
def fetchItemPath (kind : DataKind) (key : String) : String :=
  match kind with
  | .flags => "/sdk/latest-flags/" ++ key
  | .segments => "/sdk/latest-segments/" ++ key

/-- Modelled from the spec: the UpdateRequestor, as the responses its
`FetchAll`/`FetchFlag`/`FetchSegment` calls would produce (pure
request/response, no retry policy of its own). -/
structure Requestor where
  fetchAllResult : Except ConnFault Snapshot
  fetchItemResult : DataKind → String → Except ConnFault VersionedItem

/-- Modelled from the spec: the states of the StreamProcessor state
machine, plus the state after an explicit `Close()`. -/
inductive Phase where
  | idle : Phase
  | connecting : Phase
  | awaitingSnapshot : Phase
  | live : Phase
  | reconnecting : Phase
  | permanentlyFailed : Phase
  | closed : Phase
deriving DecidableEq, Repr

/-- Modelled from the spec: one recorded connection attempt (timing fields
are not modelled; the outcome flag is). -/
structure ConnAttempt where
  failed : Bool
deriving DecidableEq, Repr

/-- Modelled from the spec: the full observable state of the
StreamProcessor: its machine phase, the store it writes, the recorded
connection attempts, whether the one-shot ready signal has fired, whether
`Initialized()` would report true, and the pull requests issued so far. -/
structure ProcState where
  phase : Phase
  store : Store
  attempts : List ConnAttempt
  readyFired : Bool
  initialized : Bool
  fetchLog : List FetchRequest

/-- Modelled from the spec: the configuration the processor reads — the
connection-establishment timeout and the UpdateRequestor it pulls
through. -/
structure StreamConfig where
  timeout : Nat
  requestor : Requestor

/-- Modelled from the spec: classify a failure and move the machine —
recoverable causes go to `Reconnecting`; unrecoverable causes go to
`PermanentlyFailed` and release the one-shot ready signal. -/
def handleFault (s : ProcState) (f : ConnFault) : ProcState :=
  if isRecoverable f then { s with phase := Phase.reconnecting }
  else { s with phase := Phase.permanentlyFailed, readyFired := true }

/-- Modelled from the spec: apply one decoded stream event.  A `put`
replaces the store and (first time) releases the ready signal; `patch` and
`delete` are version-gated writes; indirect events pull through the
UpdateRequestor first, and a pull failure is classified exactly like a
stream connection failure; an event whose path does not parse is skipped. -/
def applyEvent (req : Requestor) (s : ProcState) (ev : StreamEvent) :
    ProcState :=
  match ev with
  | .put snapshot =>
      { s with store := initStore s.store snapshot, phase := Phase.live,
               readyFired := true, initialized := true }
  | .patch path item =>
      match parsePath path with
      | some (kind, _) => { s with store := (upsert s.store kind item).1 }
      | none => s
  | .deleteEvent path version =>
      match parsePath path with
      | some (kind, key) =>
          { s with store := (deleteItem s.store kind key version).1 }
      | none => s
  | .indirectPut =>
      match req.fetchAllResult with
      | .ok snapshot =>
          { s with store := initStore s.store snapshot, phase := Phase.live,
                   readyFired := true, initialized := true,
                   fetchLog := s.fetchLog ++ [FetchRequest.fetchAllReq] }
      | .error f =>
          handleFault
            { s with fetchLog := s.fetchLog ++ [FetchRequest.fetchAllReq] } f
  | .indirectPatch path =>
      match parsePath path with
      | some (kind, key) =>
          match req.fetchItemResult kind key with
          | .ok item =>
              { s with store := (upsert s.store kind item).1,
                       fetchLog :=
                         s.fetchLog ++ [FetchRequest.fetchItemReq kind key] }
          | .error f =>
              handleFault
                { s with fetchLog :=
                    s.fetchLog ++ [FetchRequest.fetchItemReq kind key] } f
      | none => s

/-- Modelled from the spec: the inputs that drive the machine — the outcome
of a connection attempt, a decoded stream event, the backoff timer
elapsing, a store status notification, a stretch of silence on the open
connection, and an explicit `Close()`. -/
inductive ProcInput where
  | connectOpened : ProcInput
  | connectFailed (fault : ConnFault) : ProcInput
  | retryElapsed : ProcInput
  | streamEvent (ev : StreamEvent) : ProcInput
  | storeStatus (available needsRefresh : Bool) : ProcInput
  | silence (duration : Nat) : ProcInput
  | closeRequested : ProcInput

/-- Modelled from the spec: one transition of the StreamProcessor state
machine (§4.3).  A successful open records a non-failed attempt and starts
decoding; a failed open records a failed attempt and is classified; the
configured timeout cancels only connection establishment, never an open
stream; a needs-refresh store status while live or reconnecting tears the
connection down and reconnects; `PermanentlyFailed` and closed absorb
everything except `Close()`. -/
def step (cfg : StreamConfig) (s : ProcState) (i : ProcInput) : ProcState :=
  match s.phase, i with
  | _, .closeRequested => { s with phase := Phase.closed }
  | .permanentlyFailed, _ => s
  | .closed, _ => s
  | .connecting, .connectOpened =>
      { s with phase := Phase.awaitingSnapshot,
               attempts := s.attempts ++ [{ failed := false }] }
  | .connecting, .connectFailed f =>
      handleFault { s with attempts := s.attempts ++ [{ failed := true }] } f
  | .connecting, .silence d =>
      if cfg.timeout < d then
        handleFault
          { s with attempts := s.attempts ++ [{ failed := true }] }
          ConnFault.networkError
      else s
  | .reconnecting, .retryElapsed => { s with phase := Phase.connecting }
  | .awaitingSnapshot, .streamEvent ev => applyEvent cfg.requestor s ev
  | .live, .streamEvent ev => applyEvent cfg.requestor s ev
  | .live, .storeStatus avail refresh =>
      if avail && refresh then { s with phase := Phase.connecting } else s
  | .reconnecting, .storeStatus avail refresh =>
      if avail && refresh then { s with phase := Phase.connecting } else s
  | _, _ => s

/-- Run the machine over a list of inputs. -/
def runProc (cfg : StreamConfig) (s : ProcState) : List ProcInput → ProcState
  | [] => s
  | i :: rest => runProc cfg (step cfg s i) rest

/-- Modelled from the spec: the state right after `Start()` — the machine
is connecting, the store is empty, nothing is recorded yet. -/
def startState : ProcState :=
  { phase := Phase.connecting, store := emptyStore, attempts := [],
    readyFired := false, initialized := false, fetchLog := [] }

/-- Go map/pointer heap: append-only allocation of string cells, bool
cells, custom-attribute maps and private-attribute maps.  References are
indices into these lists. -/
structure GoHeap where
  strHeap : List String
  boolHeap : List Bool
  mapHeap : List (List (String × LDValue))
  attrHeap : List (List (String × Bool))

/-- Go map assignment `m[k] = v` on an association list: replace the
binding if the key is present, else append it. -/
def assocSet {α : Type} (m : List (String × α)) (k : String) (v : α) :
    List (String × α) :=
  match m with
  | [] => [(k, v)]
  | (k2, v2) :: rest =>
      if k2 = k then (k, v) :: rest else (k2, v2) :: assocSet rest k v

/-- Go `delete(m, k)` on an association list. -/
def assocErase {α : Type} (m : List (String × α)) (k : String) :
    List (String × α) :=
  match m with
  | [] => []
  | (k2, v2) :: rest =>
      if k2 = k then rest else (k2, v2) :: assocErase rest k

/-- Modelled from the spec: the `User` struct (its file `user.go` is not
among the sources; only `user_builder.go` is).  `Key`, `Anonymous` and
`Custom` are Go pointers, modelled as heap references; the
`OptionalString`-backed attribute pointers are immutable fresh copies, so
they are modelled directly as optional strings; `PrivateAttributeNames` is
a slice that nothing mutates, modelled as a list. -/
structure User where
  key : Option Nat
  secondary : Option String
  ip : Option String
  country : Option String
  email : Option String
  firstName : Option String
  lastName : Option String
  avatar : Option String
  name : Option String
  anonymous : Option Nat
  custom : Option Nat
  privateAttributeNames : List String
deriving DecidableEq, Repr

/-- The builder state of `userBuilderImpl` in `user_builder.go`: plain
value fields, plus heap references for the two mutable maps (`nil` maps are
`none`). -/
structure UserBuilderImpl where
  key : String
  secondary : Option String
  ip : Option String
  country : Option String
  email : Option String
  firstName : Option String
  lastName : Option String
  avatar : Option String
  name : Option String
  anonymous : Bool
  hasAnonymous : Bool
  custom : Option Nat
  privateAttrs : Option Nat
deriving DecidableEq, Repr

/-- `NewUserBuilderFromUser` from `user_builder.go`: copy every attribute
of an existing user into a fresh builder; the custom map and the
private-attribute set are copied into newly allocated maps. -/
def NewUserBuilderFromUser (fromUser : User) (h : GoHeap) :
    UserBuilderImpl × GoHeap :=
  let b0 : UserBuilderImpl :=
    { key := match fromUser.key with
             | some r => h.strHeap.getD r ""
             | none => ""
      secondary := fromUser.secondary
      ip := fromUser.ip
      country := fromUser.country
      email := fromUser.email
      firstName := fromUser.firstName
      lastName := fromUser.lastName
      avatar := fromUser.avatar
      name := fromUser.name
      anonymous := match fromUser.anonymous with
                   | some r => h.boolHeap.getD r false
                   | none => false
      hasAnonymous := match fromUser.anonymous with
                      | some _ => true
                      | none => false
      custom := none
      privateAttrs := none }
  ({ b0 with
      custom := match fromUser.custom with
                | some _ => some h.mapHeap.length
                | none => none
      privateAttrs := match fromUser.privateAttributeNames with
                      | [] => none
                      | _ :: _ => some h.attrHeap.length },
   { h with
      mapHeap := h.mapHeap ++
        (match fromUser.custom with
         | some r => [h.mapHeap.getD r []]
         | none => [])
      attrHeap := h.attrHeap ++
        (match fromUser.privateAttributeNames with
         | [] => []
         | _ :: _ =>
             [fromUser.privateAttributeNames.foldl
                (fun m n => assocSet m n true) []]) })

/-- `Build` from `user_builder.go`: the key is copied into a fresh string
cell, the anonymous flag (when set) into a fresh bool cell, a non-empty
custom map into a fresh map, and the names marked private into a fresh
slice; an empty or nil custom map yields a nil `Custom` pointer. -/
def Build (b : UserBuilderImpl) (h : GoHeap) : User × GoHeap :=
  let customMap := match b.custom with
                   | some r => h.mapHeap.getD r []
                   | none => []
  let attrMap := match b.privateAttrs with
                 | some r => h.attrHeap.getD r []
                 | none => []
  ({ key := some h.strHeap.length
     secondary := b.secondary
     ip := b.ip
     country := b.country
     email := b.email
     firstName := b.firstName
     lastName := b.lastName
     avatar := b.avatar
     name := b.name
     anonymous := if b.hasAnonymous then some h.boolHeap.length else none
     custom := if 0 < customMap.length then some h.mapHeap.length else none
     privateAttributeNames :=
       if 0 < attrMap.length then
         (attrMap.filter (fun e => e.2)).map (fun e => e.1)
       else [] },
   { strHeap := h.strHeap ++ [b.key]
     boolHeap := h.boolHeap ++ (if b.hasAnonymous then [b.anonymous] else [])
     mapHeap := h.mapHeap ++ (if 0 < customMap.length then [customMap] else [])
     attrHeap := h.attrHeap })

/-- One setter call on the builder, as in `user_builder.go` (the
`AsPrivateAttribute`/`AsNonPrivateAttribute` calls carry the attribute name
held by the `userBuilderCanMakeAttributePrivate` wrapper). -/
inductive BuilderOp where
  | key (v : String) : BuilderOp
  | secondary (v : String) : BuilderOp
  | ip (v : String) : BuilderOp
  | country (v : String) : BuilderOp
  | email (v : String) : BuilderOp
  | firstName (v : String) : BuilderOp
  | lastName (v : String) : BuilderOp
  | avatar (v : String) : BuilderOp
  | name (v : String) : BuilderOp
  | anonymous (v : Bool) : BuilderOp
  | custom (n : String) (v : LDValue) : BuilderOp
  | asPrivate (attr : String) : BuilderOp
  | asNonPrivate (attr : String) : BuilderOp

/-- Apply one setter call to the builder, mirroring `user_builder.go`: the
value setters overwrite builder fields; `Custom` allocates the custom map
on first use and then assigns into it in place; `AsPrivateAttribute` does
the same with the private-attribute map; `AsNonPrivateAttribute` deletes
from it when it exists. -/
def applyBuilderOp (b : UserBuilderImpl) (h : GoHeap) (op : BuilderOp) :
    UserBuilderImpl × GoHeap :=
  match op with
  | .key v => ({ b with key := v }, h)
  | .secondary v => ({ b with secondary := some v }, h)
  | .ip v => ({ b with ip := some v }, h)
  | .country v => ({ b with country := some v }, h)
  | .email v => ({ b with email := some v }, h)
  | .firstName v => ({ b with firstName := some v }, h)
  | .lastName v => ({ b with lastName := some v }, h)
  | .avatar v => ({ b with avatar := some v }, h)
  | .name v => ({ b with name := some v }, h)
  | .anonymous v => ({ b with anonymous := v, hasAnonymous := true }, h)
  | .custom n v =>
      match b.custom with
      | none =>
          ({ b with custom := some h.mapHeap.length },
           { h with mapHeap := h.mapHeap ++ [assocSet [] n v] })
      | some r =>
          (b, { h with mapHeap :=
                  h.mapHeap.set r (assocSet (h.mapHeap.getD r []) n v) })
  | .asPrivate attr =>
      match b.privateAttrs with
      | none =>
          ({ b with privateAttrs := some h.attrHeap.length },
           { h with attrHeap := h.attrHeap ++ [assocSet [] attr true] })
      | some r =>
          (b, { h with attrHeap :=
                  h.attrHeap.set r (assocSet (h.attrHeap.getD r []) attr true) })
  | .asNonPrivate attr =>
      match b.privateAttrs with
      | none => (b, h)
      | some r =>
          (b, { h with attrHeap :=
                  h.attrHeap.set r (assocErase (h.attrHeap.getD r []) attr) })

/-- The key attribute of a user as read through its pointer (a nil key
reads as the empty string, as `GetKey` does). -/
def userKeyStr (h : GoHeap) (u : User) : String :=
  match u.key with
  | some r => h.strHeap.getD r ""
  | none => ""

/-- The anonymous attribute of a user as read through its pointer,
preserving set-versus-unset. -/
def userAnonVal (h : GoHeap) (u : User) : Option Bool :=
  u.anonymous.map (fun r => h.boolHeap.getD r false)

/-- The custom-attribute map of a user as read through its pointer (nil
and empty read the same: no custom attributes). -/
def userCustomAttrs (h : GoHeap) (u : User) : List (String × LDValue) :=
  match u.custom with
  | some r => h.mapHeap.getD r []
  | none => []

/-- Every observable field of a user, all pointers dereferenced: the view
a reader of the `User` value has. -/
structure UserView where
  key : Option String
  secondary : Option String
  ip : Option String
  country : Option String
  email : Option String
  firstName : Option String
  lastName : Option String
  avatar : Option String
  name : Option String
  anonymous : Option Bool
  custom : Option (List (String × LDValue))
  privateAttributeNames : List String
deriving DecidableEq, Repr

/-- Dereference every field of a user in a given heap. -/
def userView (h : GoHeap) (u : User) : UserView :=
  { key := u.key.map (fun r => h.strHeap.getD r "")
    secondary := u.secondary
    ip := u.ip
    country := u.country
    email := u.email
    firstName := u.firstName
    lastName := u.lastName
    avatar := u.avatar
    name := u.name
    anonymous := u.anonymous.map (fun r => h.boolHeap.getD r false)
    custom := u.custom.map (fun r => h.mapHeap.getD r [])
    privateAttributeNames := u.privateAttributeNames }

lemma omax_none_right (a : Option Nat) : omax a none = a := by
  cases a <;> rfl

lemma maxOfList_cons (v : Nat) (l : List Nat) :
    maxOfList (v :: l) = omax (some v) (maxOfList l) := by
  cases h : maxOfList l <;> simp [maxOfList, omax, h]

lemma omax_absorb_left (w a : Nat) (x : Option Nat) (hw : w ≤ a) :
    omax (some w) (omax (some a) x) = omax (some a) x := by
  cases x with
  | none => simp [omax, Nat.max_eq_right hw]
  | some m =>
      simp [omax]
      omega

lemma storedVersion_some (s : Store) (kind : DataKind) (key : String)
    (v : Nat) (h : storedVersion s kind key = some v) :
    ∃ it, s.items kind key = some it ∧ it.version = v := by
  unfold storedVersion at h
  cases hit : s.items kind key with
  | none => rw [hit] at h; simp at h
  | some it => rw [hit] at h; simp at h; exact ⟨it, rfl, h⟩

lemma applyKeyOp_reject_of_le (kind : DataKind) (key : String) (s : Store)
    (op : KeyOp) (v : Nat) (hv : storedVersion s kind key = some v)
    (hle : op.ver ≤ v) : applyKeyOp kind key s op = (s, false) := by
  obtain ⟨it, hit, hver⟩ := storedVersion_some s kind key v hv
  cases op with
  | up w p =>
      simp only [KeyOp.ver] at hle
      simp [applyKeyOp, upsert, hit, Nat.not_lt.mpr (hver ▸ hle)]
  | del w =>
      simp only [KeyOp.ver] at hle
      simp [applyKeyOp, deleteItem, upsert, hit, Nat.not_lt.mpr (hver ▸ hle)]

lemma storedVersion_storeWrite (s : Store) (kind : DataKind) (key : String)
    (item : VersionedItem) :
    storedVersion (storeWrite s kind key item) kind key = some item.version := by
  simp [storedVersion, storeWrite]

lemma applyKeyOp_accept (kind : DataKind) (key : String) (s : Store)
    (op : KeyOp) (hacc : (applyKeyOp kind key s op).2 = true) :
    storedVersion (applyKeyOp kind key s op).1 kind key = some op.ver ∧
    ∀ w, storedVersion s kind key = some w → w < op.ver := by
  cases op with
  | up v p =>
      cases hit : s.items kind key with
      | none =>
          refine ⟨?_, ?_⟩
          · simp [applyKeyOp, upsert, hit, storedVersion_storeWrite, KeyOp.ver]
          · intro w hw
            obtain ⟨it, hit2, _⟩ := storedVersion_some s kind key w hw
            rw [hit] at hit2; exact absurd hit2 (by simp)
      | some existing =>
          by_cases hlt : existing.version < v
          · refine ⟨?_, ?_⟩
            · simp [applyKeyOp, upsert, hit, hlt, storedVersion_storeWrite,
                    KeyOp.ver]
            · intro w hw
              obtain ⟨it, hit2, hver⟩ := storedVersion_some s kind key w hw
              rw [hit] at hit2
              injection hit2 with hit3
              simp [KeyOp.ver, ← hver, ← hit3, hlt]
          · exfalso
            simp [applyKeyOp, upsert, hit, hlt] at hacc
  | del v =>
      cases hit : s.items kind key with
      | none =>
          refine ⟨?_, ?_⟩
          · simp [applyKeyOp, deleteItem, upsert, hit, storedVersion_storeWrite,
                  KeyOp.ver]
          · intro w hw
            obtain ⟨it, hit2, _⟩ := storedVersion_some s kind key w hw
            rw [hit] at hit2; exact absurd hit2 (by simp)
      | some existing =>
          by_cases hlt : existing.version < v
          · refine ⟨?_, ?_⟩
            · simp [applyKeyOp, deleteItem, upsert, hit, hlt,
                    storedVersion_storeWrite, KeyOp.ver]
            · intro w hw
              obtain ⟨it, hit2, hver⟩ := storedVersion_some s kind key w hw
              rw [hit] at hit2
              injection hit2 with hit3
              simp [KeyOp.ver, ← hver, ← hit3, hlt]
          · exfalso
            simp [applyKeyOp, deleteItem, upsert, hit, hlt] at hacc

lemma applyKeyOp_not_accept (kind : DataKind) (key : String) (s : Store)
    (op : KeyOp) (hacc : (applyKeyOp kind key s op).2 = false) :
    (applyKeyOp kind key s op).1 = s := by
  cases op with
  | up v p =>
      cases hit : s.items kind key with
      | none => simp [applyKeyOp, upsert, hit] at hacc
      | some existing =>
          by_cases hlt : existing.version < v
          · simp [applyKeyOp, upsert, hit, hlt] at hacc
          · simp [applyKeyOp, upsert, hit, hlt]
  | del v =>
      cases hit : s.items kind key with
      | none => simp [applyKeyOp, deleteItem, upsert, hit] at hacc
      | some existing =>
          by_cases hlt : existing.version < v
          · simp [applyKeyOp, deleteItem, upsert, hit, hlt] at hacc
          · simp [applyKeyOp, deleteItem, upsert, hit, hlt]

lemma runKeyOps_storedVersion (kind : DataKind) (key : String) :
    ∀ (ops : List KeyOp) (s : Store),
      storedVersion (runKeyOps kind key s ops) kind key
        = omax (storedVersion s kind key)
               (maxOfList (acceptedVersions kind key s ops))
  | [], s => by simp [runKeyOps, acceptedVersions, maxOfList, omax_none_right]
  | op :: rest, s => by
      cases hacc : (applyKeyOp kind key s op).2 with
      | true =>
          obtain ⟨hver, hlt⟩ := applyKeyOp_accept kind key s op hacc
          have ih := runKeyOps_storedVersion kind key rest
            (applyKeyOp kind key s op).1
          simp only [runKeyOps, acceptedVersions, hacc, if_pos]
          rw [ih, hver, maxOfList_cons]
          cases hsv : storedVersion s kind key with
          | none => simp [omax]
          | some w =>
              exact (omax_absorb_left w op.ver _
                (Nat.le_of_lt (hlt w hsv))).symm
      | false =>
          have heq := applyKeyOp_not_accept kind key s op hacc
          have ih := runKeyOps_storedVersion kind key rest
            (applyKeyOp kind key s op).1
          simp only [runKeyOps, acceptedVersions, hacc]
          rw [ih, heq]
          simp

/-- Claim C1: for every sequence of `Upsert`/`Delete` calls on a given
`(kind, key)` starting from a store with nothing at that key, the version
stored afterwards equals the maximum version among the accepted calls, and
any call whose version is less than or equal to the currently stored
version is rejected without error and leaves the store completely
unchanged (replaying it is a no-op). -/
theorem c1_version_monotonicity (kind : DataKind) (key : String)
    (ops : List KeyOp) (s0 : Store) (h0 : s0.items kind key = none) :
    storedVersion (runKeyOps kind key s0 ops) kind key
      = maxOfList (acceptedVersions kind key s0 ops)
    ∧ ∀ (s : Store) (op : KeyOp) (v : Nat),
        storedVersion s kind key = some v → op.ver ≤ v →
        applyKeyOp kind key s op = (s, false) := by
  constructor
  · rw [runKeyOps_storedVersion]
    simp [storedVersion, h0, omax]
  · intro s op v hv hle
    exact applyKeyOp_reject_of_le kind key s op v hv hle

/-- Witness for C1: a concrete run in which the stale delete is rejected
and the stored version is the maximum accepted version. -/
theorem c1_version_monotonicity_witness :
    emptyStore.items DataKind.flags "k" = none ∧
    storedVersion
        (runKeyOps DataKind.flags "k" emptyStore
          [KeyOp.up 2 LDValue.null, KeyOp.del 1, KeyOp.up 5 LDValue.null])
        DataKind.flags "k"
      = maxOfList
          (acceptedVersions DataKind.flags "k" emptyStore
            [KeyOp.up 2 LDValue.null, KeyOp.del 1, KeyOp.up 5 LDValue.null]) :=
  ⟨rfl,
   (c1_version_monotonicity DataKind.flags "k"
      [KeyOp.up 2 LDValue.null, KeyOp.del 1, KeyOp.up 5 LDValue.null]
      emptyStore rfl).1⟩

/-- The initial `put` data used across the streaming tests: flag
`my-flag` at version 2 and segment `my-segment` at version 5. -/
def testPutSnapshot : Snapshot := fun kind key =>
  match kind with
  | DataKind.flags =>
      if key = "my-flag" then
        some { key := "my-flag", version := 2, deleted := false,
               payload := LDValue.null }
      else none
  | DataKind.segments =>
      if key = "my-segment" then
        some { key := "my-segment", version := 5, deleted := false,
               payload := LDValue.null }
      else none

/-- The polling endpoint of the streaming tests: a single-item pull for
flag `my-flag` answers with version 5; everything else fails. -/
def testRequestor : Requestor :=
  { fetchAllResult := Except.error ConnFault.networkError
    fetchItemResult := fun kind key =>
      if kind = DataKind.flags ∧ key = "my-flag" then
        Except.ok { key := "my-flag", version := 5, deleted := false,
                    payload := LDValue.null }
      else Except.error ConnFault.networkError }

/-- A concrete configuration: 200ms connection timeout, the test
requestor. -/
def testConfig : StreamConfig :=
  { timeout := 200, requestor := testRequestor }

lemma parsePath_myflag :
    parsePath "/flags/my-flag" = some (DataKind.flags, "my-flag") := by
  decide

/-- Claim C2: a `put` whose data contains `my-flag` at version 2, followed
by a `patch` on `/flags/my-flag` carrying the same key at version 3,
results in `Get(Flags, "my-flag")` returning an item whose version is 3. -/
theorem c2_put_then_patch (cfg : StreamConfig) (snap : Snapshot)
    (item2 : VersionedItem) (p : LDValue)
    (h2 : snap DataKind.flags "my-flag" = some item2)
    (hv : item2.version = 2) :
    getItem
        (runProc cfg startState
          [ProcInput.connectOpened,
           ProcInput.streamEvent (StreamEvent.put snap),
           ProcInput.streamEvent (StreamEvent.patch "/flags/my-flag"
             { key := "my-flag", version := 3, deleted := false,
               payload := p })]).store
        DataKind.flags "my-flag"
      = some { key := "my-flag", version := 3, deleted := false,
               payload := p } := by
  show getItem
      (applyEvent cfg.requestor
        (applyEvent cfg.requestor
          (step cfg startState ProcInput.connectOpened)
          (StreamEvent.put snap))
        (StreamEvent.patch "/flags/my-flag"
          { key := "my-flag", version := 3, deleted := false,
            payload := p })).store
      DataKind.flags "my-flag"
    = some { key := "my-flag", version := 3, deleted := false, payload := p }
  simp only [applyEvent, parsePath_myflag, step, startState, initStore,
             emptyStore]
  simp only [upsert, h2, hv]
  norm_num [getItem, storeWrite]

/-- Witness for C2: the concrete test snapshot, patched to version 3. -/
theorem c2_put_then_patch_witness :
    testPutSnapshot DataKind.flags "my-flag"
      = some { key := "my-flag", version := 2, deleted := false,
               payload := LDValue.null } ∧
    getItem
        (runProc testConfig startState
          [ProcInput.connectOpened,
           ProcInput.streamEvent (StreamEvent.put testPutSnapshot),
           ProcInput.streamEvent (StreamEvent.patch "/flags/my-flag"
             { key := "my-flag", version := 3, deleted := false,
               payload := LDValue.null })]).store
        DataKind.flags "my-flag"
      = some { key := "my-flag", version := 3, deleted := false,
               payload := LDValue.null } :=
  ⟨by decide,
   c2_put_then_patch testConfig testPutSnapshot
     { key := "my-flag", version := 2, deleted := false,
       payload := LDValue.null }
     LDValue.null (by decide) rfl⟩

/-- Claim C3: with an item stored for `(Flags, "my-flag")` at a version
below 4, a `delete` event on `/flags/my-flag` with version 4 makes `Get`
on that flag key report not-found (the tombstone is not surfaced). -/
theorem c3_delete_not_found (cfg : StreamConfig) (s : ProcState) (v : Nat)
    (p : LDValue) (hphase : s.phase = Phase.live)
    (hit : s.store.items DataKind.flags "my-flag"
      = some { key := "my-flag", version := v, deleted := false,
               payload := p })
    (hv : v < 4) :
    getItem
        (step cfg s (ProcInput.streamEvent
          (StreamEvent.deleteEvent "/flags/my-flag" 4))).store
        DataKind.flags "my-flag"
      = none := by
  obtain ⟨ph, st, att, rdy, ini, fl⟩ := s
  simp only at hphase hit
  subst hphase
  simp only [step, applyEvent, parsePath_myflag]
  simp only [deleteItem, upsert, hit]
  norm_num [hv, getItem, storeWrite]

/-- Witness for C3: deleting the version-2 flag of the test snapshot with
version 4 makes it not-found. -/
theorem c3_delete_not_found_witness :
    (runProc testConfig startState
        [ProcInput.connectOpened,
         ProcInput.streamEvent (StreamEvent.put testPutSnapshot)]).phase
      = Phase.live ∧
    (runProc testConfig startState
        [ProcInput.connectOpened,
         ProcInput.streamEvent (StreamEvent.put testPutSnapshot)]).store.items
        DataKind.flags "my-flag"
      = some { key := "my-flag", version := 2, deleted := false,
               payload := LDValue.null } ∧
    getItem
        (step testConfig
          (runProc testConfig startState
            [ProcInput.connectOpened,
             ProcInput.streamEvent (StreamEvent.put testPutSnapshot)])
          (ProcInput.streamEvent
            (StreamEvent.deleteEvent "/flags/my-flag" 4))).store
        DataKind.flags "my-flag"
      = none :=
  ⟨rfl, by decide,
   c3_delete_not_found testConfig
     (runProc testConfig startState
       [ProcInput.connectOpened,
        ProcInput.streamEvent (StreamEvent.put testPutSnapshot)])
     2 LDValue.null rfl (by decide) (by decide)⟩

lemma runProc_attempts_absorbing (cfg : StreamConfig) :
    ∀ (rest : List ProcInput) (s : ProcState),
      (s.phase = Phase.permanentlyFailed ∨ s.phase = Phase.closed) →
      (runProc cfg s rest).attempts = s.attempts
  | [], _, _ => rfl
  | i :: rest, s, h => by
      obtain ⟨ph, st, att, rdy, ini, fl⟩ := s
      simp only at h
      have hstep :
          (step cfg ⟨ph, st, att, rdy, ini, fl⟩ i).attempts = att ∧
          ((step cfg ⟨ph, st, att, rdy, ini, fl⟩ i).phase
              = Phase.permanentlyFailed ∨
           (step cfg ⟨ph, st, att, rdy, ini, fl⟩ i).phase = Phase.closed) := by
        rcases h with h | h <;> subst h <;> cases i <;>
          simp [step]
      calc (runProc cfg ⟨ph, st, att, rdy, ini, fl⟩ (i :: rest)).attempts
          = (runProc cfg (step cfg ⟨ph, st, att, rdy, ini, fl⟩ i)
              rest).attempts := rfl
        _ = (step cfg ⟨ph, st, att, rdy, ini, fl⟩ i).attempts :=
            runProc_attempts_absorbing cfg rest _ hstep.2
        _ = att := hstep.1

/-- Claim C4: a first connection attempt answered with HTTP 401 or 403
stops the processor permanently — the one-shot ready signal fires,
`Initialized()` is false, exactly one attempt is recorded with
`failed = true`, and no further input ever adds a connection attempt. -/
theorem c4_unrecoverable_auth_fault (cfg : StreamConfig) (code : Nat)
    (hcode : code = 401 ∨ code = 403) (rest : List ProcInput) :
    (step cfg startState
        (ProcInput.connectFailed (ConnFault.httpError code))).phase
      = Phase.permanentlyFailed ∧
    (step cfg startState
        (ProcInput.connectFailed (ConnFault.httpError code))).readyFired
      = true ∧
    (step cfg startState
        (ProcInput.connectFailed (ConnFault.httpError code))).initialized
      = false ∧
    (step cfg startState
        (ProcInput.connectFailed (ConnFault.httpError code))).attempts
      = [{ failed := true }] ∧
    (runProc cfg
        (step cfg startState
          (ProcInput.connectFailed (ConnFault.httpError code)))
        rest).attempts
      = [{ failed := true }] := by
  have hphase :
      (step cfg startState
        (ProcInput.connectFailed (ConnFault.httpError code))).phase
      = Phase.permanentlyFailed := by
    rcases hcode with h | h <;> subst h <;> rfl
  refine ⟨hphase, ?_, ?_, ?_, ?_⟩
  · rcases hcode with h | h <;> subst h <;> rfl
  · rcases hcode with h | h <;> subst h <;> rfl
  · rcases hcode with h | h <;> subst h <;> rfl
  · rw [runProc_attempts_absorbing cfg rest _ (Or.inl hphase)]
    rcases hcode with h | h <;> subst h <;> rfl

/-- Witness for C4: the 401 case, with further inputs afterwards that are
all ignored. -/
theorem c4_unrecoverable_auth_fault_witness :
    ((401 : Nat) = 401 ∨ (401 : Nat) = 403) ∧
    (runProc testConfig
        (step testConfig startState
          (ProcInput.connectFailed (ConnFault.httpError 401)))
        [ProcInput.retryElapsed, ProcInput.connectOpened,
         ProcInput.streamEvent (StreamEvent.put testPutSnapshot)]).attempts
      = [{ failed := true }] :=
  ⟨Or.inl rfl,
   (c4_unrecoverable_auth_fault testConfig 401 (Or.inl rfl)
     [ProcInput.retryElapsed, ProcInput.connectOpened,
      ProcInput.streamEvent (StreamEvent.put testPutSnapshot)]).2.2.2.2⟩

/-- Claim C5: a first connection attempt answered with HTTP 400 or 500,
followed by a successful attempt that delivers a `put`, reconnects rather
than failing: two attempts are recorded (`failed = true` then
`failed = false`) and `Initialized()` becomes true. -/
theorem c5_recoverable_server_fault (cfg : StreamConfig) (code : Nat)
    (hcode : code = 400 ∨ code = 500) (snap : Snapshot) :
    (runProc cfg startState
        [ProcInput.connectFailed (ConnFault.httpError code),
         ProcInput.retryElapsed, ProcInput.connectOpened,
         ProcInput.streamEvent (StreamEvent.put snap)]).attempts
      = [{ failed := true }, { failed := false }] ∧
    (runProc cfg startState
        [ProcInput.connectFailed (ConnFault.httpError code),
         ProcInput.retryElapsed, ProcInput.connectOpened,
         ProcInput.streamEvent (StreamEvent.put snap)]).initialized
      = true ∧
    (runProc cfg startState
        [ProcInput.connectFailed (ConnFault.httpError code),
         ProcInput.retryElapsed, ProcInput.connectOpened,
         ProcInput.streamEvent (StreamEvent.put snap)]).readyFired
      = true := by
  rcases hcode with h | h <;> subst h <;> exact ⟨rfl, rfl, rfl⟩

/-- Witness for C5: the 500 case with the concrete test snapshot. -/
theorem c5_recoverable_server_fault_witness :
    ((500 : Nat) = 400 ∨ (500 : Nat) = 500) ∧
    (runProc testConfig startState
        [ProcInput.connectFailed (ConnFault.httpError 500),
         ProcInput.retryElapsed, ProcInput.connectOpened,
         ProcInput.streamEvent (StreamEvent.put testPutSnapshot)]).attempts
      = [{ failed := true }, { failed := false }] :=
  ⟨Or.inr rfl,
   (c5_recoverable_server_fault testConfig 500 (Or.inr rfl)
     testPutSnapshot).1⟩

/-- Claim C6: a store status `{available:false}` followed by
`{available:true, needsRefresh:true}` while the connection is live makes
the processor tear the connection down and reconnect, so a second full
`Init` of the store happens with the new connection's data. -/
theorem c6_refresh_restarts_stream (cfg : StreamConfig)
    (snap1 snap2 : Snapshot) :
    (runProc cfg startState
        [ProcInput.connectOpened, ProcInput.streamEvent (StreamEvent.put snap1),
         ProcInput.storeStatus false false, ProcInput.storeStatus true true,
         ProcInput.connectOpened,
         ProcInput.streamEvent (StreamEvent.put snap2)]).store.initLog
      = [snap1, snap2] ∧
    (runProc cfg startState
        [ProcInput.connectOpened, ProcInput.streamEvent (StreamEvent.put snap1),
         ProcInput.storeStatus false false, ProcInput.storeStatus true true,
         ProcInput.connectOpened,
         ProcInput.streamEvent (StreamEvent.put snap2)]).store.items
      = snap2 ∧
    (runProc cfg startState
        [ProcInput.connectOpened, ProcInput.streamEvent (StreamEvent.put snap1),
         ProcInput.storeStatus false false,
         ProcInput.storeStatus true true]).phase
      = Phase.connecting := by
  exact ⟨rfl, rfl, rfl⟩

/-- Claim C7: an `indirect-patch` event with path `/flags/my-flag` issues
exactly one single-item pull for that flag (request path
`/sdk/latest-flags/my-flag`) and applies the fetched item through the same
version-gated upsert as a direct `patch`; when the gate passes, `Get`
afterwards returns the fetched item. -/
theorem c7_indirect_patch (cfg : StreamConfig) (s : ProcState)
    (item : VersionedItem) (hphase : s.phase = Phase.live)
    (hfetch : cfg.requestor.fetchItemResult DataKind.flags "my-flag"
      = Except.ok item)
    (hkey : item.key = "my-flag") :
    (step cfg s (ProcInput.streamEvent
        (StreamEvent.indirectPatch "/flags/my-flag"))).fetchLog
      = s.fetchLog ++ [FetchRequest.fetchItemReq DataKind.flags "my-flag"] ∧
    fetchItemPath DataKind.flags "my-flag" = "/sdk/latest-flags/my-flag" ∧
    (step cfg s (ProcInput.streamEvent
        (StreamEvent.indirectPatch "/flags/my-flag"))).store
      = (step cfg s (ProcInput.streamEvent
          (StreamEvent.patch "/flags/my-flag" item))).store ∧
    ∀ v, storedVersion s.store DataKind.flags "my-flag" = some v →
      v < item.version → item.deleted = false →
      getItem
          (step cfg s (ProcInput.streamEvent
            (StreamEvent.indirectPatch "/flags/my-flag"))).store
          DataKind.flags "my-flag"
        = some item := by
  obtain ⟨ph, st, att, rdy, ini, fl⟩ := s
  simp only at hphase
  subst hphase
  obtain ⟨ikey, iver, idel, ipay⟩ := item
  simp only at hkey
  subst hkey
  refine ⟨?_, ?_, ?_, ?_⟩
  · simp only [step, applyEvent, parsePath_myflag, hfetch]
  · decide
  · simp only [step, applyEvent, parsePath_myflag, hfetch]
  · intro v hv hlt hdel
    obtain ⟨ex, hex, hver⟩ := storedVersion_some st DataKind.flags "my-flag" v hv
    simp only at hdel
    subst hdel
    simp only [step, applyEvent, parsePath_myflag, hfetch]
    simp only [upsert, hex]
    subst hver
    norm_num [hlt, getItem, storeWrite]

/-- Witness for C7: a live processor holding the version-2 flag, an
indirect patch that pulls version 5. -/
theorem c7_indirect_patch_witness :
    (runProc testConfig startState
        [ProcInput.connectOpened,
         ProcInput.streamEvent (StreamEvent.put testPutSnapshot)]).phase
      = Phase.live ∧
    testConfig.requestor.fetchItemResult DataKind.flags "my-flag"
      = Except.ok { key := "my-flag", version := 5, deleted := false,
                    payload := LDValue.null } ∧
    (step testConfig
        (runProc testConfig startState
          [ProcInput.connectOpened,
           ProcInput.streamEvent (StreamEvent.put testPutSnapshot)])
        (ProcInput.streamEvent
          (StreamEvent.indirectPatch "/flags/my-flag"))).fetchLog
      = [FetchRequest.fetchItemReq DataKind.flags "my-flag"] :=
  ⟨rfl, rfl,
   (c7_indirect_patch testConfig
     (runProc testConfig startState
       [ProcInput.connectOpened,
        ProcInput.streamEvent (StreamEvent.put testPutSnapshot)])
     { key := "my-flag", version := 5, deleted := false,
       payload := LDValue.null }
     rfl rfl rfl).1⟩

lemma runProc_append (cfg : StreamConfig) :
    ∀ (l1 l2 : List ProcInput) (s : ProcState),
      runProc cfg s (l1 ++ l2) = runProc cfg (runProc cfg s l1) l2
  | [], _, _ => rfl
  | _ :: l1, l2, s => runProc_append cfg l1 l2 _

lemma runProc_silence_live (cfg : StreamConfig) (d : Nat) :
    ∀ (n : Nat) (s : ProcState), s.phase = Phase.live →
      runProc cfg s (List.replicate n (ProcInput.silence d)) = s
  | 0, _, _ => rfl
  | n + 1, s, h => by
      obtain ⟨ph, st, att, rdy, ini, fl⟩ := s
      simp only at h
      subst h
      show runProc cfg
        (step cfg ⟨Phase.live, st, att, rdy, ini, fl⟩ (ProcInput.silence d))
        (List.replicate n (ProcInput.silence d)) = _
      exact runProc_silence_live cfg d n ⟨Phase.live, st, att, rdy, ini, fl⟩ rfl

/-- Claim C8: the configured timeout is never applied as a read-idle
timeout: however long the open stream stays silent (even far beyond the
timeout), the processor state is exactly what it was when the connection
delivered its data, and exactly one connection attempt is on record. -/
theorem c8_timeout_not_read_timeout (cfg : StreamConfig) (snap : Snapshot)
    (d n : Nat) (hd : cfg.timeout < d) :
    runProc cfg startState
        ([ProcInput.connectOpened,
          ProcInput.streamEvent (StreamEvent.put snap)]
          ++ List.replicate n (ProcInput.silence d))
      = runProc cfg startState
          [ProcInput.connectOpened,
           ProcInput.streamEvent (StreamEvent.put snap)] ∧
    (runProc cfg startState
        ([ProcInput.connectOpened,
          ProcInput.streamEvent (StreamEvent.put snap)]
          ++ List.replicate n (ProcInput.silence d))).attempts
      = [{ failed := false }] := by
  have h1 :
      runProc cfg startState
          ([ProcInput.connectOpened,
            ProcInput.streamEvent (StreamEvent.put snap)]
            ++ List.replicate n (ProcInput.silence d))
        = runProc cfg startState
            [ProcInput.connectOpened,
             ProcInput.streamEvent (StreamEvent.put snap)] := by
    rw [runProc_append]
    exact runProc_silence_live cfg d n _ rfl
  exact ⟨h1, by rw [h1]; rfl⟩

/-- Witness for C8: a 200ms timeout, 500ms of silence repeated three
times; the single successful attempt is all that is recorded. -/
theorem c8_timeout_not_read_timeout_witness :
    testConfig.timeout < 500 ∧
    (runProc testConfig startState
        ([ProcInput.connectOpened,
          ProcInput.streamEvent (StreamEvent.put testPutSnapshot)]
          ++ List.replicate 3 (ProcInput.silence 500))).attempts
      = [{ failed := false }] :=
  ⟨by decide,
   (c8_timeout_not_read_timeout testConfig testPutSnapshot 500 3
     (by decide)).2⟩

lemma getD_append_length {α : Type} (l : List α) (x d : α) :
    (l ++ [x]).getD l.length d = x := by
  induction l with
  | nil => rfl
  | cons a t ih => simpa using ih

lemma assocSet_snd_true (m : List (String × Bool)) (k : String)
    (hm : ∀ e ∈ m, e.2 = true) : ∀ e ∈ assocSet m k true, e.2 = true := by
  induction m with
  | nil => intro e he; simp [assocSet] at he; simp [he]
  | cons a t ih =>
      intro e he
      simp only [assocSet] at he
      by_cases hk : a.1 = k
      · simp [hk] at he
        rcases he with he | he
        · simp [he]
        · exact hm e (by simp [he])
      · simp [hk] at he
        rcases he with he | he
        · exact hm e (by simp [he])
        · exact ih (fun e2 he2 => hm e2 (by simp [he2])) e he

lemma foldl_assocSet_snd_true (names : List String) :
    ∀ (m0 : List (String × Bool)), (∀ e ∈ m0, e.2 = true) →
      ∀ e ∈ names.foldl (fun m n => assocSet m n true) m0, e.2 = true := by
  induction names with
  | nil => intro m0 hm0 e he; exact hm0 e he
  | cons n rest ih =>
      intro m0 hm0 e he
      exact ih (assocSet m0 n true) (assocSet_snd_true m0 n hm0) e he

lemma filter_snd_true (m : List (String × Bool))
    (hm : ∀ e ∈ m, e.2 = true) : m.filter (fun e => e.2) = m :=
  List.filter_eq_self.mpr hm

lemma mem_fst_assocSet (m : List (String × Bool)) (k a : String) (v : Bool) :
    a ∈ (assocSet m k v).map Prod.fst ↔ a = k ∨ a ∈ m.map Prod.fst := by
  induction m with
  | nil => simp [assocSet]
  | cons e t ih =>
      by_cases hk : e.1 = k <;> simp [assocSet, hk, ih] <;> tauto

lemma mem_fst_foldl (names : List String) :
    ∀ (m0 : List (String × Bool)) (a : String),
      a ∈ (names.foldl (fun m n => assocSet m n true) m0).map Prod.fst ↔
        a ∈ m0.map Prod.fst ∨ a ∈ names := by
  induction names with
  | nil => intro m0 a; simp
  | cons n rest ih =>
      intro m0 a
      simp only [List.foldl_cons, ih, mem_fst_assocSet, List.mem_cons]
      tauto

lemma assocSet_ne_nil (m : List (String × Bool)) (k : String) (v : Bool) :
    assocSet m k v ≠ [] := by
  cases m with
  | nil => simp [assocSet]
  | cons e t =>
      simp only [assocSet]
      by_cases hk : e.1 = k <;> simp [hk]

lemma foldl_assocSet_ne_nil (names : List String) :
    ∀ (m0 : List (String × Bool)), m0 ≠ [] →
      names.foldl (fun m n => assocSet m n true) m0 ≠ [] := by
  induction names with
  | nil => intro m0 h; exact h
  | cons n rest ih =>
      intro m0 _
      exact ih (assocSet m0 n true) (assocSet_ne_nil m0 n true)

lemma getD_append2 {α : Type} (l : List α) (x y d : α) :
    (l ++ [x, y]).getD (l.length + 1) d = y := by
  induction l with
  | nil => rfl
  | cons a t ih => simpa using ih

lemma getElem_append2 {α : Type} (l : List α) (x y : α)
    (hlt : l.length + 1 < (l ++ [x, y]).length) :
    (l ++ [x, y])[l.length + 1] = y := by
  induction l with
  | nil => rfl
  | cons a t ih => simpa using ih (by simp)

lemma mem_privNames_fold (names : List String) (n : String) :
    (n ∈ if 0 < (names.foldl (fun m n2 => assocSet m n2 true) []).length then
        ((names.foldl (fun m n2 => assocSet m n2 true) []).filter
          (fun e => e.2)).map (fun e => e.1)
      else []) ↔ n ∈ names := by
  cases names with
  | nil => simp
  | cons a t =>
      have hne : (a :: t).foldl (fun m n2 => assocSet m n2 true) [] ≠ [] := by
        show t.foldl _ (assocSet [] a true) ≠ []
        exact foldl_assocSet_ne_nil t _ (assocSet_ne_nil [] a true)
      rw [if_pos (List.length_pos.mpr hne)]
      rw [filter_snd_true _ (foldl_assocSet_snd_true (a :: t) [] (by simp))]
      have h2 := mem_fst_foldl (a :: t) [] n
      simpa using h2

/-- `NewUserBuilderFromUser` immediately followed by `Build`, with no
setter calls in between. -/
def rebuildUser (u : User) (h : GoHeap) : User × GoHeap :=
  Build (NewUserBuilderFromUser u h).1 (NewUserBuilderFromUser u h).2

/-- Claim C9: `NewUserBuilderFromUser` then `Build` with no intervening
setters yields a user agreeing with the original on every attribute: key
(read through its pointer), the eight optional string attributes, the
anonymous flag including set-versus-unset, all custom attributes (nil and
empty maps both mean "no custom attributes"), and the private attribute
names as a set. -/
theorem c9_rebuild_agrees (u : User) (h : GoHeap) :
    userKeyStr (rebuildUser u h).2 (rebuildUser u h).1 = userKeyStr h u ∧
    (rebuildUser u h).1.secondary = u.secondary ∧
    (rebuildUser u h).1.ip = u.ip ∧
    (rebuildUser u h).1.country = u.country ∧
    (rebuildUser u h).1.email = u.email ∧
    (rebuildUser u h).1.firstName = u.firstName ∧
    (rebuildUser u h).1.lastName = u.lastName ∧
    (rebuildUser u h).1.avatar = u.avatar ∧
    (rebuildUser u h).1.name = u.name ∧
    userAnonVal (rebuildUser u h).2 (rebuildUser u h).1 = userAnonVal h u ∧
    userCustomAttrs (rebuildUser u h).2 (rebuildUser u h).1
      = userCustomAttrs h u ∧
    (∀ n, n ∈ (rebuildUser u h).1.privateAttributeNames ↔
        n ∈ u.privateAttributeNames) := by
  obtain ⟨ukey, usec, uip, uco, uem, ufn, uln, uav, unm, uanon, ucust, upan⟩ := u
  refine ⟨?_, ?_, ?_, ?_, ?_, ?_, ?_, ?_, ?_, ?_, ?_, ?_⟩
  · cases uanon <;> cases ucust <;> cases upan <;>
      simp [rebuildUser, NewUserBuilderFromUser, Build, userKeyStr,
            getD_append_length]
  · cases uanon <;> cases ucust <;> cases upan <;> rfl
  · cases uanon <;> cases ucust <;> cases upan <;> rfl
  · cases uanon <;> cases ucust <;> cases upan <;> rfl
  · cases uanon <;> cases ucust <;> cases upan <;> rfl
  · cases uanon <;> cases ucust <;> cases upan <;> rfl
  · cases uanon <;> cases ucust <;> cases upan <;> rfl
  · cases uanon <;> cases ucust <;> cases upan <;> rfl
  · cases uanon <;> cases ucust <;> cases upan <;> rfl
  · cases uanon <;> cases ucust <;> cases upan <;>
      simp [rebuildUser, NewUserBuilderFromUser, Build, userAnonVal,
            getD_append_length]
  · cases ucust with
    | none =>
        cases uanon <;> cases upan <;>
          simp [rebuildUser, NewUserBuilderFromUser, Build, userCustomAttrs]
    | some r =>
        cases hm : h.mapHeap[r]?.getD [] with
        | nil =>
            cases uanon <;> cases upan <;>
              simp [rebuildUser, NewUserBuilderFromUser, Build,
                    userCustomAttrs, getD_append_length, hm]
        | cons e t =>
            cases uanon <;> cases upan <;>
              simp [rebuildUser, NewUserBuilderFromUser, Build,
                    userCustomAttrs, getD_append_length, getD_append2,
                    getElem_append2, hm]
  · cases upan with
    | nil =>
        cases uanon <;> cases ucust <;>
          simp [rebuildUser, NewUserBuilderFromUser, Build]
    | cons pn pt =>
        cases uanon <;> cases ucust <;>
          (intro n
           simp only [rebuildUser, NewUserBuilderFromUser, Build,
                      getD_append_length]
           exact mem_privNames_fold (pn :: pt) n)

/-- Claim C10: a built `User` is independent of the builder that produced
it — after any further setter call on the builder, every dereferenced
field of the previously built user (key, optional string attributes,
anonymous flag, custom-attribute map, private-attribute-name list) is
unchanged, because `Build` copies the key, the custom map and the
private-attribute set into fresh storage. -/
theorem c10_built_user_independent (b : UserBuilderImpl) (h : GoHeap)
    (op : BuilderOp)
    (hwf : ∀ r, b.custom = some r → r < h.mapHeap.length) :
    userView (applyBuilderOp b (Build b h).2 op).2 (Build b h).1
      = userView (Build b h).2 (Build b h).1 := by
  obtain ⟨bk, bs, bi, bc, be, bf, bl2, ba, bn, ban, bha, bcust, bpriv⟩ := b
  cases op with
  | key v => rfl
  | secondary v => rfl
  | ip v => rfl
  | country v => rfl
  | email v => rfl
  | firstName v => rfl
  | lastName v => rfl
  | avatar v => rfl
  | name v => rfl
  | anonymous v => rfl
  | asPrivate attr => cases bpriv <;> rfl
  | asNonPrivate attr => cases bpriv <;> rfl
  | custom n v =>
      cases bcust with
      | none => rfl
      | some r =>
          have hr : r < h.mapHeap.length := hwf r rfl
          by_cases hm : 0 < (h.mapHeap[r]?.getD []).length
          · simp [userView, Build, applyBuilderOp, hm,
                  List.getElem?_set_ne (Nat.ne_of_lt hr)]
          · simp [userView, Build, applyBuilderOp, hm]

/-- A concrete builder holding one custom attribute, for the C10 witness. -/
def c10Builder : UserBuilderImpl :=
  { key := "user-key", secondary := none, ip := none, country := none,
    email := none, firstName := none, lastName := none, avatar := none,
    name := none, anonymous := false, hasAnonymous := false,
    custom := some 0, privateAttrs := none }

/-- A concrete heap holding that builder's custom map, for the C10
witness. -/
def c10Heap : GoHeap :=
  { strHeap := [], boolHeap := [], mapHeap := [[("a", LDValue.num 1)]],
    attrHeap := [] }

/-- Witness for C10: overwriting the custom attribute after `Build` leaves
the built user's view unchanged. -/
theorem c10_built_user_independent_witness :
    (∀ r, c10Builder.custom = some r → r < c10Heap.mapHeap.length) ∧
    userView
        (applyBuilderOp c10Builder (Build c10Builder c10Heap).2
          (BuilderOp.custom "a" (LDValue.num 2))).2
        (Build c10Builder c10Heap).1
      = userView (Build c10Builder c10Heap).2 (Build c10Builder c10Heap).1 :=
  ⟨fun r hr => by simp [c10Builder] at hr; simp [c10Heap, ← hr],
   c10_built_user_independent c10Builder c10Heap
     (BuilderOp.custom "a" (LDValue.num 2))
     (fun r hr => by simp [c10Builder] at hr; simp [c10Heap, ← hr])⟩
